import Mathlib

/-
Shallow embedding of the Simple-Calc repository (src/calculator.py), an
interactive command-line calculator that stores calculation history in two
module-level Python dicts:
  calculation_history : day-of-month -> list of calculation records
  daily_stats         : day-of-month -> {count, sum, min, max, average}

Modelling conventions:
  * Python floats are modelled as rationals (ℚ); arithmetic on them is exact.
  * The float('inf') / float('-inf') sentinels used by update_daily_stats are
    modelled as ⊤ : WithTop ℚ and ⊥ : WithBot ℚ.
  * Python dicts are modelled as association lists with Python-dict update
    semantics: assigning to an existing key replaces its value in place,
    assigning a fresh key appends it at the end; lookup finds the first match.
  * Code that raises exceptions (execute_operation) returns Except.
  * The wall-clock reads (datetime.datetime.now().day and the timestamp
    string) are passed as explicit parameters.
-/

namespace SimpleCalc

/-- A calculation record, mirroring the dict built in store_calculation. -/
structure Record where
  timestamp : String
  num1 : ℚ
  num2 : ℚ
  operation : String
  result : ℚ
  deriving DecidableEq, Repr

/-- Per-day statistics, mirroring the dict maintained by update_daily_stats.
The min field starts at the +infinity sentinel (⊤) and max at the -infinity
sentinel (⊥). -/
structure DayStats where
  count : ℕ
  sum : ℚ
  min : WithTop ℚ
  max : WithBot ℚ
  average : ℚ
  deriving DecidableEq, Repr

/-- Lookup in a Python-dict-like association list: first matching key. -/
def dictLookup {α : Type} (k : ℕ) : List (ℕ × α) → Option α
  | [] => none
  | (k', v) :: rest => if k = k' then some v else dictLookup k rest

/-- Assignment in a Python-dict-like association list: replace the value of an
existing key in place, or append a fresh key at the end. -/
def dictInsert {α : Type} (k : ℕ) (v : α) : List (ℕ × α) → List (ℕ × α)
  | [] => [(k, v)]
  | (k', v') :: rest =>
      if k = k' then (k, v) :: rest else (k', v') :: dictInsert k v rest

/-- The keys of a dict, in insertion order (Python dict iteration order). -/
def dictKeys {α : Type} (m : List (ℕ × α)) : List ℕ := m.map Prod.fst

/-- The two module-level data structures of calculator.py. -/
structure CalcState where
  calculation_history : List (ℕ × List Record)
  daily_stats : List (ℕ × DayStats)
  deriving DecidableEq, Repr

/-- The empty initial state: both dicts start empty at process start. -/
def initState : CalcState := ⟨[], []⟩

/-- validate_inputs from calculator.py: rejects division by zero, printing an
error message.  Returns the boolean result together with the printed
messages. -/
def validate_inputs (num1 num2 : ℚ) (operation : String) : Bool × List String :=
  if operation = "/" ∧ num2 = 0 then
    (false, ["Error: Division by zero is not allowed!"])
  else
    (true, [])

/-- execute_operation from calculator.py.  Python raises ZeroDivisionError on
float division by zero and ValueError on an unrecognized operator; both are
modelled as Except.error. -/
def execute_operation (num1 num2 : ℚ) (operation : String) : Except String ℚ :=
  if operation = "+" then Except.ok (num1 + num2)
  else if operation = "-" then Except.ok (num1 - num2)
  else if operation = "*" then Except.ok (num1 * num2)
  else if operation = "/" then
    if num2 = 0 then Except.error "float division by zero"
    else Except.ok (num1 / num2)
  else Except.error ("Unknown operation: " ++ operation)

/-- The zero-state a day's statistics are initialized to when the day is not
yet present in daily_stats (count 0, sum 0.0, min +inf, max -inf,
average 0.0). -/
def statsInit : DayStats :=
  { count := 0, sum := 0, min := ⊤, max := ⊥, average := 0 }

/-- The in-place mutation performed on a day's statistics dict by
update_daily_stats: count += 1, sum += result, min/max by comparison,
average = sum / count (with the already-updated sum and count). -/
def statsUpd (s : DayStats) (result : ℚ) : DayStats :=
  let count := s.count + 1
  let sum := s.sum + result
  { count := count
    sum := sum
    min := Min.min s.min (result : WithTop ℚ)
    max := Max.max s.max (result : WithBot ℚ)
    average := sum / (count : ℚ) }

/-- update_daily_stats from calculator.py, acting on the daily_stats dict. -/
def update_daily_stats (day : ℕ) (result : ℚ) (stats : List (ℕ × DayStats)) :
    List (ℕ × DayStats) :=
  dictInsert day (statsUpd ((dictLookup day stats).getD statsInit) result) stats

/-- store_calculation from calculator.py: appends the record to the current
day's history list (creating the day if absent) and updates that day's
statistics.  current_day and the timestamp come from the wall clock and are
passed explicitly. -/
def store_calculation (current_day : ℕ) (timestamp : String)
    (num1 num2 : ℚ) (operation : String) (result : ℚ) (st : CalcState) :
    CalcState :=
  let calculation_record : Record :=
    { timestamp := timestamp, num1 := num1, num2 := num2
      operation := operation, result := result }
  { calculation_history :=
      dictInsert current_day
        (((dictLookup current_day st.calculation_history).getD []) ++
          [calculation_record])
        st.calculation_history
    daily_stats := update_daily_stats current_day result st.daily_stats }

/-- The menu choice 1 branch of main: validate, then evaluate, then display
and store.  Returns the new state, the computed result (none when validation
rejected or evaluation raised) and the printed validation messages.  When
validation fails the branch continues back to the menu without evaluating. -/
def perform_calculation (current_day : ℕ) (timestamp : String)
    (num1 num2 : ℚ) (operation : String) (st : CalcState) :
    CalcState × Option ℚ × List String :=
  let v := validate_inputs num1 num2 operation
  if v.1 then
    match execute_operation num1 num2 operation with
    | Except.ok result =>
        (store_calculation current_day timestamp num1 num2 operation result st,
          some result, v.2)
    | Except.error e => (st, none, v.2 ++ [e])
  else
    (st, none, v.2)

/-- What display_daily_history renders when called with a specific day. -/
inductive DayView where
  | found (day : ℕ) (records : List Record) (stats : Option DayStats)
  | notFound (day : ℕ)
  deriving DecidableEq, Repr

/-- display_daily_history(day) from calculator.py: if the day is in
calculation_history, renders its records and (when present) its statistics;
otherwise prints "No calculations found for day {day}". -/
def display_daily_history_day (day : ℕ) (st : CalcState) : DayView :=
  match dictLookup day st.calculation_history with
  | some recs => DayView.found day recs (dictLookup day st.daily_stats)
  | none => DayView.notFound day

/-- sorted(keys) as used by the all-days display loops. -/
def sortedKeys {α : Type} (m : List (ℕ × α)) : List ℕ :=
  List.insertionSort (· ≤ ·) (dictKeys m)

/-- The sequence of days enumerated by display_daily_history() with no day
argument: sorted(calculation_history.keys()). -/
def allHistoryDays (st : CalcState) : List ℕ := sortedKeys st.calculation_history

/-- The sequence of days enumerated by the menu choice 5 statistics view:
sorted(daily_stats.keys()). -/
def allStatsDays (st : CalcState) : List ℕ := sortedKeys st.daily_stats

/-- display_daily_history() with no day argument: the per-day history
renderings in sorted day order, or none when the history dict is empty
("No calculation history available."). -/
def display_all_history (st : CalcState) : Option (List (ℕ × List Record)) :=
  match st.calculation_history with
  | [] => none
  | _ =>
    some ((allHistoryDays st).map fun d =>
      (d, (dictLookup d st.calculation_history).getD []))

/-- The menu choice 5 branch: the per-day statistics in sorted day order, or
none when the stats dict is empty ("No statistics available."). -/
def display_all_stats (st : CalcState) : Option (List (ℕ × DayStats)) :=
  match st.daily_stats with
  | [] => none
  | _ =>
    some ((allStatsDays st).map fun d =>
      (d, (dictLookup d st.daily_stats).getD statsInit))

/-- What one iteration of the main menu loop renders. -/
inductive MenuOutput where
  | calcDone (messages : List String) (result : Option ℚ)
  | dayView (v : DayView)
  | allHistory (v : Option (List (ℕ × List Record)))
  | allStats (v : Option (List (ℕ × DayStats)))
  | dayInputError (message : String)
  | farewell
  | invalidChoice
  deriving Repr

/-- One iteration of the main menu loop of calculator.py, dispatching on the
menu choice string.  today and timestamp come from the wall clock; the
calculation prompts are the a, b, op parameters; dayInput is the parsed
day entry for choice 3 (none when int() raised ValueError). -/
def main_step (choice : String) (today : ℕ) (timestamp : String)
    (a b : ℚ) (op : String) (dayInput : Option ℤ) (st : CalcState) :
    CalcState × MenuOutput :=
  if choice = "1" then
    let r := perform_calculation today timestamp a b op st
    (r.1, MenuOutput.calcDone r.2.2 r.2.1)
  else if choice = "2" then
    (st, MenuOutput.dayView (display_daily_history_day today st))
  else if choice = "3" then
    match dayInput with
    | none => (st, MenuOutput.dayInputError "Error: Please enter a valid day number")
    | some d =>
        if 1 ≤ d ∧ d ≤ 31 then
          (st, MenuOutput.dayView (display_daily_history_day d.toNat st))
        else
          (st, MenuOutput.dayInputError "Error: Day must be between 1 and 31")
  else if choice = "4" then
    (st, MenuOutput.allHistory (display_all_history st))
  else if choice = "5" then
    (st, MenuOutput.allStats (display_all_stats st))
  else if choice = "6" then
    (st, MenuOutput.farewell)
  else
    (st, MenuOutput.invalidChoice)

/-- A store event: the wall-clock day together with the stored record's
fields. -/
structure StoreEv where
  day : ℕ
  timestamp : String
  num1 : ℚ
  num2 : ℚ
  operation : String
  result : ℚ
  deriving DecidableEq, Repr

/-- Run a sequence of store_calculation operations from the empty initial
state. -/
def runStore (evs : List StoreEv) : CalcState :=
  evs.foldl
    (fun st e =>
      store_calculation e.day e.timestamp e.num1 e.num2 e.operation e.result st)
    initState

/-- The records currently stored for a day (empty when the day is absent). -/
def recsOn (st : CalcState) (d : ℕ) : List Record :=
  (dictLookup d st.calculation_history).getD []

/-- The results recorded for a day, in insertion order. -/
def resultsOn (st : CalcState) (d : ℕ) : List ℚ :=
  (recsOn st d).map Record.result

/-- The statistics obtained by folding the aggregator over a list of results
from the zero-state. -/
def statsOfResults (rs : List ℚ) : DayStats := rs.foldl statsUpd statsInit

/-- Looking up a key just inserted yields the inserted value. -/
lemma dictLookup_dictInsert_self {α : Type} (k : ℕ) (v : α) :
    ∀ m : List (ℕ × α), dictLookup k (dictInsert k v m) = some v
  | [] => by simp [dictInsert, dictLookup]
  | (k', v') :: rest => by
      by_cases h : k = k' <;>
        simp [dictInsert, dictLookup, h, dictLookup_dictInsert_self k v rest]

/-- Inserting at one key leaves lookups at every other key unchanged. -/
lemma dictLookup_dictInsert_ne {α : Type} {k k' : ℕ} (v : α) (hne : k' ≠ k) :
    ∀ m : List (ℕ × α), dictLookup k' (dictInsert k v m) = dictLookup k' m
  | [] => by simp [dictInsert, dictLookup, hne]
  | (k'', v'') :: rest => by
      by_cases h : k = k''
      · subst h
        simp [dictInsert, dictLookup, hne]
      · by_cases h' : k' = k'' <;>
          simp [dictInsert, dictLookup, h, h', dictLookup_dictInsert_ne v hne rest]

/-- A key is among a dict's keys exactly when its lookup succeeds. -/
lemma mem_dictKeys_iff {α : Type} (k : ℕ) :
    ∀ m : List (ℕ × α), k ∈ dictKeys m ↔ (dictLookup k m).isSome
  | [] => by simp [dictKeys, dictLookup]
  | (k', v') :: rest => by
      rw [show dictKeys ((k', v') :: rest) = k' :: dictKeys rest from rfl,
        List.mem_cons, mem_dictKeys_iff k rest]
      by_cases h : k = k' <;> simp [dictLookup, h]

/-- The keys after an insertion are the inserted key plus the old keys. -/
lemma mem_dictKeys_dictInsert {α : Type} {x k : ℕ} (v : α) :
    ∀ m : List (ℕ × α), x ∈ dictKeys (dictInsert k v m) ↔ x = k ∨ x ∈ dictKeys m
  | [] => by simp [dictInsert, dictKeys]
  | (k', v') :: rest => by
      by_cases h : k = k'
      · subst h
        simp [dictInsert, dictKeys]
      · have ih := mem_dictKeys_dictInsert (x := x) (k := k) v rest
        simp only [dictInsert, if_neg h]
        rw [show dictKeys ((k', v') :: dictInsert k v rest) =
              k' :: dictKeys (dictInsert k v rest) from rfl,
          show dictKeys ((k', v') :: rest) = k' :: dictKeys rest from rfl,
          List.mem_cons, List.mem_cons, ih]
        tauto

/-- Insertion preserves distinctness of the keys. -/
lemma nodup_dictKeys_dictInsert {α : Type} (k : ℕ) (v : α) :
    ∀ m : List (ℕ × α), (dictKeys m).Nodup → (dictKeys (dictInsert k v m)).Nodup
  | [], _ => by simp [dictInsert, dictKeys]
  | (k', v') :: rest, hnd => by
      rw [show dictKeys ((k', v') :: rest) = k' :: dictKeys rest from rfl,
        List.nodup_cons] at hnd
      by_cases h : k = k'
      · subst h
        simpa [dictInsert, dictKeys, List.nodup_cons] using hnd
      · rw [show dictKeys (dictInsert k v ((k', v') :: rest)) =
            dictKeys ((k', v') :: dictInsert k v rest) from by simp [dictInsert, h],
          show dictKeys ((k', v') :: dictInsert k v rest) =
            k' :: dictKeys (dictInsert k v rest) from rfl, List.nodup_cons]
        refine ⟨fun hmem => ?_, nodup_dictKeys_dictInsert k v rest hnd.2⟩
        rcases (mem_dictKeys_dictInsert v rest).1 hmem with he | he
        · exact h he.symm
        · exact hnd.1 he

/-- Folding the aggregator over a list with one more result at the end is one
aggregator step on the fold over the prefix. -/
lemma statsOfResults_concat (rs : List ℚ) (r : ℚ) :
    statsOfResults (rs ++ [r]) = statsUpd (statsOfResults rs) r := by
  simp [statsOfResults, List.foldl_append]

/-- The aggregated count is the number of results. -/
lemma statsOfResults_count (rs : List ℚ) :
    (statsOfResults rs).count = rs.length := by
  induction rs using List.reverseRecOn with
  | nil => rfl
  | append_singleton rs r ih => simp [statsOfResults_concat, statsUpd, ih]

/-- The aggregated sum is the sum of the results. -/
lemma statsOfResults_sum (rs : List ℚ) :
    (statsOfResults rs).sum = rs.sum := by
  induction rs using List.reverseRecOn with
  | nil => rfl
  | append_singleton rs r ih => simp [statsOfResults_concat, statsUpd, ih]

/-- The aggregated min is the minimum of the results (⊤ when there are
none). -/
lemma statsOfResults_min (rs : List ℚ) :
    (statsOfResults rs).min = rs.minimum := by
  induction rs using List.reverseRecOn with
  | nil => simp [statsOfResults, statsInit, List.minimum_nil]
  | append_singleton rs r ih =>
      simp [statsOfResults_concat, statsUpd, ih, List.minimum_concat]

/-- The aggregated max is the maximum of the results (⊥ when there are
none). -/
lemma statsOfResults_max (rs : List ℚ) :
    (statsOfResults rs).max = rs.maximum := by
  induction rs using List.reverseRecOn with
  | nil => simp [statsOfResults, statsInit, List.maximum_nil]
  | append_singleton rs r ih =>
      simp [statsOfResults_concat, statsUpd, ih, List.maximum_concat]

/-- The aggregated average is sum divided by count (0 for the empty list,
since division by zero yields 0 in ℚ). -/
lemma statsOfResults_average (rs : List ℚ) :
    (statsOfResults rs).average = rs.sum / (rs.length : ℚ) := by
  induction rs using List.reverseRecOn with
  | nil => simp [statsOfResults, statsInit]
  | append_singleton rs r ih =>
      have hc := statsOfResults_count rs
      have hs := statsOfResults_sum rs
      rw [statsOfResults_concat]
      simp only [statsUpd, List.sum_append, List.length_append, List.sum_cons,
        List.sum_nil, List.length_cons, List.length_nil]
      rw [hc, hs]
      push_cast
      ring_nf

/-- The state invariant maintained by store_calculation: both dicts have
distinct keys, each day's statistics entry is exactly the aggregator folded
over that day's results (and exists exactly when the day has a history
entry), and no day's history entry is an empty list. -/
def goodState (st : CalcState) : Prop :=
  (dictKeys st.calculation_history).Nodup ∧
  (dictKeys st.daily_stats).Nodup ∧
  ∀ d, dictLookup d st.daily_stats =
      (dictLookup d st.calculation_history).map
        (fun recs => statsOfResults (recs.map Record.result)) ∧
    dictLookup d st.calculation_history ≠ some []

/-- The empty initial state satisfies the invariant. -/
lemma goodState_init : goodState initState := by
  refine ⟨List.nodup_nil, List.nodup_nil, fun d => ?_⟩
  simp [initState, dictLookup]

/-- The day-getD of the statistics dict is always the aggregator folded over
that day's recorded results, under the invariant. -/
lemma stats_getD_eq (st : CalcState) (hg : goodState st) (d : ℕ) :
    (dictLookup d st.daily_stats).getD statsInit =
      statsOfResults (resultsOn st d) := by
  have h := (hg.2.2 d).1
  cases hh : dictLookup d st.calculation_history with
  | none => simp [h, hh, resultsOn, recsOn, statsOfResults]
  | some recs => simp [h, hh, resultsOn, recsOn]

/-- store_calculation preserves the invariant. -/
lemma goodState_store (day : ℕ) (ts : String) (a b : ℚ) (op : String)
    (r : ℚ) (st : CalcState) (hg : goodState st) :
    goodState (store_calculation day ts a b op r st) := by
  obtain ⟨hnd1, hnd2, hinv⟩ := hg
  refine ⟨nodup_dictKeys_dictInsert _ _ _ hnd1,
    nodup_dictKeys_dictInsert _ _ _ hnd2, fun d => ?_⟩
  by_cases hd : d = day
  · subst hd
    constructor
    · rw [show (store_calculation d ts a b op r st).daily_stats =
          update_daily_stats d r st.daily_stats from rfl,
        update_daily_stats, dictLookup_dictInsert_self,
        show (store_calculation d ts a b op r st).calculation_history =
          dictInsert d (recsOn st d ++
            [⟨ts, a, b, op, r⟩]) st.calculation_history from rfl,
        dictLookup_dictInsert_self, stats_getD_eq st ⟨hnd1, hnd2, hinv⟩ d]
      simp [resultsOn, statsOfResults_concat]
    · rw [show (store_calculation d ts a b op r st).calculation_history =
          dictInsert d (recsOn st d ++
            [⟨ts, a, b, op, r⟩]) st.calculation_history from rfl,
        dictLookup_dictInsert_self]
      simp
  · constructor
    · rw [show (store_calculation day ts a b op r st).daily_stats =
          update_daily_stats day r st.daily_stats from rfl,
        update_daily_stats, dictLookup_dictInsert_ne _ hd,
        show (store_calculation day ts a b op r st).calculation_history =
          dictInsert day (recsOn st day ++
            [⟨ts, a, b, op, r⟩]) st.calculation_history from rfl,
        dictLookup_dictInsert_ne _ hd]
      exact (hinv d).1
    · rw [show (store_calculation day ts a b op r st).calculation_history =
          dictInsert day (recsOn st day ++
            [⟨ts, a, b, op, r⟩]) st.calculation_history from rfl,
        dictLookup_dictInsert_ne _ hd]
      exact (hinv d).2

/-- Every state reachable by a sequence of store operations satisfies the
invariant. -/
lemma goodState_runStore (evs : List StoreEv) : goodState (runStore evs) := by
  suffices h : ∀ (l : List StoreEv) (st : CalcState), goodState st →
      goodState (l.foldl (fun st e =>
        store_calculation e.day e.timestamp e.num1 e.num2 e.operation
          e.result st) st) by
    exact h evs initState goodState_init
  intro l
  induction l with
  | nil => exact fun st h => h
  | cons e l ih =>
      intro st h
      exact ih _ (goodState_store _ _ _ _ _ _ _ h)

/-- Folding update_daily_stats at a fixed day over a list of results, when
the day is already present, folds the pure aggregator over its value. -/
lemma dictLookup_foldl_update (d : ℕ) :
    ∀ (rs : List ℚ) (m : List (ℕ × DayStats)) (s : DayStats),
      dictLookup d m = some s →
      dictLookup d (rs.foldl (fun acc r => update_daily_stats d r acc) m) =
        some (rs.foldl statsUpd s)
  | [], _, _, h => h
  | r :: rs, m, s, h => by
      rw [List.foldl_cons, List.foldl_cons]
      apply dictLookup_foldl_update d rs
      rw [update_daily_stats, dictLookup_dictInsert_self, h]
      rfl

/-- Folding update_daily_stats at a fixed day over a nonempty list of results
starting from the empty stats dict yields exactly the aggregator fold. -/
lemma dictLookup_foldl_update_ofEmpty (d : ℕ) (r : ℚ) (rs : List ℚ) :
    dictLookup d
        ((r :: rs).foldl (fun acc x => update_daily_stats d x acc) []) =
      some (statsOfResults (r :: rs)) := by
  rw [List.foldl_cons]
  exact dictLookup_foldl_update d rs _ _
    (by rw [update_daily_stats, dictLookup_dictInsert_self]; rfl)

/-- A ≤-sorted list with no duplicates is <-sorted. -/
lemma pairwise_lt_of_le_nodup :
    ∀ {l : List ℕ}, l.Pairwise (· ≤ ·) → l.Nodup → l.Pairwise (· < ·)
  | [], _, _ => List.Pairwise.nil
  | a :: l, h1, h2 => by
      rw [List.pairwise_cons] at h1 ⊢
      rw [List.nodup_cons] at h2
      refine ⟨fun b hb => lt_of_le_of_ne (h1.1 b hb) fun e => h2.1 ?_,
        pairwise_lt_of_le_nodup h1.2 h2.2⟩
      rw [e]
      exact hb

/-- sorted(keys) of a dict with distinct keys is strictly ascending. -/
lemma sortedKeys_sorted {α : Type} (m : List (ℕ × α))
    (hnd : (dictKeys m).Nodup) : (sortedKeys m).Pairwise (· < ·) := by
  have h1 : (sortedKeys m).Pairwise (· ≤ ·) :=
    List.sorted_insertionSort (· ≤ ·) (dictKeys m)
  have h2 : (sortedKeys m).Nodup :=
    ((List.perm_insertionSort (· ≤ ·) (dictKeys m)).nodup_iff).2 hnd
  exact pairwise_lt_of_le_nodup h1 h2

/-- Membership in sorted(keys) is membership among the dict's keys. -/
lemma mem_sortedKeys {α : Type} (m : List (ℕ × α)) (d : ℕ) :
    d ∈ sortedKeys m ↔ (dictLookup d m).isSome := by
  rw [sortedKeys,
    (List.perm_insertionSort (· ≤ ·) (dictKeys m)).mem_iff, mem_dictKeys_iff]

/-- Under the invariant, a day has a history entry exactly when it has at
least one record. -/
lemma recsOn_ne_nil_iff (st : CalcState) (hg : goodState st) (d : ℕ) :
    recsOn st d ≠ [] ↔ (dictLookup d st.calculation_history).isSome := by
  cases hh : dictLookup d st.calculation_history with
  | none => simp [recsOn, hh]
  | some recs =>
      simp only [recsOn, hh, Option.getD_some, Option.isSome_some, iff_true,
        ne_eq]
      intro hrecs
      exact (hg.2.2 d).2 (by rw [hh, hrecs])

/-- Under the invariant, a day has a statistics entry exactly when it has a
history entry. -/
lemma stats_isSome_iff (st : CalcState) (hg : goodState st) (d : ℕ) :
    (dictLookup d st.daily_stats).isSome =
      (dictLookup d st.calculation_history).isSome := by
  rw [(hg.2.2 d).1]
  cases dictLookup d st.calculation_history <;> simp

/-- C1: starting from a day with no prior records, after appending results
r1..rN one at a time through update_daily_stats, the day's statistics satisfy
count = N, sum = Σ ri, min = min ri, max = max ri and average = sum / N, and
this holds after each individual append (every prefix of length i+1); the
initial sentinels are min = +∞ and max = -∞, so the first result wins both
comparisons. -/
theorem claim_C1_incremental_stats (d : ℕ) (rs : List ℚ) (i : ℕ)
    (hi : i < rs.length) :
    statsInit.min = ⊤ ∧ statsInit.max = ⊥ ∧
    ∃ s : DayStats,
      dictLookup d ((rs.take (i + 1)).foldl
          (fun acc r => update_daily_stats d r acc) []) = some s ∧
      s.count = i + 1 ∧
      s.sum = (rs.take (i + 1)).sum ∧
      s.min = (rs.take (i + 1)).minimum ∧
      s.max = (rs.take (i + 1)).maximum ∧
      s.average = (rs.take (i + 1)).sum / ((i + 1 : ℕ) : ℚ) := by
  refine ⟨rfl, rfl, ?_⟩
  have hlen : (rs.take (i + 1)).length = i + 1 := by
    rw [List.length_take]
    omega
  obtain ⟨r, rs', hrr⟩ : ∃ r rs', rs.take (i + 1) = r :: rs' := by
    cases htk : rs.take (i + 1) with
    | nil => rw [htk] at hlen; simp at hlen
    | cons r rs' => exact ⟨r, rs', rfl⟩
  refine ⟨statsOfResults (rs.take (i + 1)), ?_, ?_, ?_, ?_, ?_, ?_⟩
  · rw [hrr]
    exact dictLookup_foldl_update_ofEmpty d r rs'
  · rw [statsOfResults_count, hlen]
  · exact statsOfResults_sum _
  · exact statsOfResults_min _
  · exact statsOfResults_max _
  · rw [statsOfResults_average, hlen]

/-- Witness for C1 at rs = [3, 1, 5] and i = 1. -/
theorem claim_C1_incremental_stats_witness :
    1 < ([3, 1, 5] : List ℚ).length ∧
    (statsInit.min = ⊤ ∧ statsInit.max = ⊥ ∧
      ∃ s : DayStats,
        dictLookup 7 ((([3, 1, 5] : List ℚ).take 2).foldl
            (fun acc r => update_daily_stats 7 r acc) []) = some s ∧
        s.count = 2 ∧
        s.sum = (([3, 1, 5] : List ℚ).take 2).sum ∧
        s.min = (([3, 1, 5] : List ℚ).take 2).minimum ∧
        s.max = (([3, 1, 5] : List ℚ).take 2).maximum ∧
        s.average = (([3, 1, 5] : List ℚ).take 2).sum / ((2 : ℕ) : ℚ)) :=
  ⟨by decide, claim_C1_incremental_stats 7 [3, 1, 5] 1 (by decide)⟩

/-- C2: for every pair of rationals, execute_operation returns the exact
arithmetic result for +, - and * unconditionally, and for / whenever the
divisor is nonzero. -/
theorem claim_C2_evaluator (a b : ℚ) :
    execute_operation a b "+" = Except.ok (a + b) ∧
    execute_operation a b "-" = Except.ok (a - b) ∧
    execute_operation a b "*" = Except.ok (a * b) ∧
    (b ≠ 0 → execute_operation a b "/" = Except.ok (a / b)) := by
  refine ⟨by simp [execute_operation], by simp [execute_operation],
    by simp [execute_operation], fun hb => by simp [execute_operation, hb]⟩

/-- Witness for C2: addition with b = 0 and division with b = 10. -/
theorem claim_C2_evaluator_witness :
    execute_operation 5 0 "+" = Except.ok 5 ∧
    (10 : ℚ) ≠ 0 ∧
    execute_operation 5 10 "/" = Except.ok (1 / 2) := by
  refine ⟨?_, by norm_num, ?_⟩
  · rw [(claim_C2_evaluator 5 0).1]
    norm_num
  · rw [(claim_C2_evaluator 5 10).2.2.2 (by norm_num)]
    norm_num

/-- C3: a division attempt with zero divisor is rejected by validate_inputs
(which prints the division-by-zero error), and the menu choice 1 branch then
returns to the menu with no result computed and both dicts exactly as they
were. -/
theorem claim_C3_div_zero_rejected (day : ℕ) (ts : String) (a b : ℚ)
    (st : CalcState) (hb : b = 0) :
    (validate_inputs a b "/").1 = false ∧
    (validate_inputs a b "/").2 =
      ["Error: Division by zero is not allowed!"] ∧
    perform_calculation day ts a b "/" st =
      (st, none, ["Error: Division by zero is not allowed!"]) := by
  subst hb
  refine ⟨by simp [validate_inputs], by simp [validate_inputs], ?_⟩
  simp [perform_calculation, validate_inputs]

/-- Witness for C3 at 10 / 0 from the empty state. -/
theorem claim_C3_div_zero_rejected_witness :
    (0 : ℚ) = 0 ∧
    ((validate_inputs 10 0 "/").1 = false ∧
      (validate_inputs 10 0 "/").2 =
        ["Error: Division by zero is not allowed!"] ∧
      perform_calculation 7 "ts" 10 0 "/" initState =
        (initState, none, ["Error: Division by zero is not allowed!"])) :=
  ⟨rfl, claim_C3_div_zero_rejected 7 "ts" 10 0 initState rfl⟩

/-- C4: in every state reachable by store operations from the empty state, a
day is in the statistics dict iff it is in the history dict with at least one
record, and its statistics count equals the length of its record list. -/
theorem claim_C4_keys_and_count (evs : List StoreEv) (d : ℕ) :
    (d ∈ dictKeys (runStore evs).daily_stats ↔
      d ∈ dictKeys (runStore evs).calculation_history ∧
        recsOn (runStore evs) d ≠ []) ∧
    (∀ s : DayStats, dictLookup d (runStore evs).daily_stats = some s →
      s.count = (recsOn (runStore evs) d).length) := by
  have hg := goodState_runStore evs
  constructor
  · rw [mem_dictKeys_iff, mem_dictKeys_iff, stats_isSome_iff _ hg d,
      ← recsOn_ne_nil_iff _ hg d]
    tauto
  · intro s hs
    have h := (hg.2.2 d).1
    rw [hs] at h
    cases hh : dictLookup d (runStore evs).calculation_history with
    | none => rw [hh] at h; simp at h
    | some recs =>
        rw [hh, Option.map_some'] at h
        rw [Option.some_inj] at h
        rw [h, statsOfResults_count, List.length_map, recsOn, hh,
          Option.getD_some]

/-- Witness for C4 after one store on day 5. -/
theorem claim_C4_keys_and_count_witness :
    (⟨1, 5, ((5 : ℚ) : WithTop ℚ), ((5 : ℚ) : WithBot ℚ), 5⟩ :
        DayStats).count =
      (recsOn (runStore [⟨5, "t", 2, 3, "+", 5⟩]) 5).length :=
  (claim_C4_keys_and_count [⟨5, "t", 2, 3, "+", 5⟩] 5).2 _
    (by norm_num [runStore, store_calculation, update_daily_stats, dictLookup,
      dictInsert, statsUpd, statsInit, initState])

/-- C5: in every reachable state, a day with a statistics entry of positive
count has average = sum / count, and every result recorded for that day lies
between min and max. -/
theorem claim_C5_avg_min_max (evs : List StoreEv) (d : ℕ) (s : DayStats)
    (hs : dictLookup d (runStore evs).daily_stats = some s)
    (hc : 0 < s.count) :
    s.average = s.sum / (s.count : ℚ) ∧
    ∀ r ∈ resultsOn (runStore evs) d,
      s.min ≤ (r : WithTop ℚ) ∧ (r : WithBot ℚ) ≤ s.max := by
  have hg := goodState_runStore evs
  have h := (hg.2.2 d).1
  rw [hs] at h
  cases hh : dictLookup d (runStore evs).calculation_history with
  | none => rw [hh] at h; simp at h
  | some recs =>
      rw [hh, Option.map_some'] at h
      rw [Option.some_inj] at h
      subst h
      constructor
      · rw [statsOfResults_average, statsOfResults_count, statsOfResults_sum]
      · intro r hr
        rw [resultsOn, recsOn, hh, Option.getD_some] at hr
        exact ⟨by rw [statsOfResults_min]; exact List.minimum_le_of_mem' hr,
          by rw [statsOfResults_max]; exact List.le_maximum_of_mem' hr⟩

/-- Witness for C5 after storing results 5 and 16 on day 5. -/
theorem claim_C5_avg_min_max_witness :
    (⟨2, 21, ((5 : ℚ) : WithTop ℚ), ((16 : ℚ) : WithBot ℚ), 21 / 2⟩ :
          DayStats).average =
        (⟨2, 21, ((5 : ℚ) : WithTop ℚ), ((16 : ℚ) : WithBot ℚ), 21 / 2⟩ :
          DayStats).sum /
          ((⟨2, 21, ((5 : ℚ) : WithTop ℚ), ((16 : ℚ) : WithBot ℚ), 21 / 2⟩ :
            DayStats).count : ℚ) ∧
    ∀ r ∈ resultsOn
        (runStore [⟨5, "t", 10, 2, "/", 5⟩, ⟨5, "u", 4, 4, "*", 16⟩]) 5,
      (⟨2, 21, ((5 : ℚ) : WithTop ℚ), ((16 : ℚ) : WithBot ℚ), 21 / 2⟩ :
          DayStats).min ≤ (r : WithTop ℚ) ∧
      (r : WithBot ℚ) ≤
        (⟨2, 21, ((5 : ℚ) : WithTop ℚ), ((16 : ℚ) : WithBot ℚ), 21 / 2⟩ :
          DayStats).max :=
  claim_C5_avg_min_max [⟨5, "t", 10, 2, "/", 5⟩, ⟨5, "u", 4, 4, "*", 16⟩] 5
    ⟨2, 21, ((5 : ℚ) : WithTop ℚ), ((16 : ℚ) : WithBot ℚ), 21 / 2⟩
    (by
      norm_num [runStore, store_calculation, update_daily_stats, dictLookup,
        dictInsert, statsUpd, statsInit, initState, min_def, max_def]
      constructor <;> exact_mod_cast (by norm_num : (5 : ℚ) ≤ 16))
    (by norm_num)

/-- C6: in every reachable state, both all-days views enumerate exactly the
days having at least one record, in strictly ascending day order. -/
theorem claim_C6_sorted_enumeration (evs : List StoreEv) :
    List.Sorted (· < ·) (allHistoryDays (runStore evs)) ∧
    List.Sorted (· < ·) (allStatsDays (runStore evs)) ∧
    ∀ d : ℕ,
      (d ∈ allHistoryDays (runStore evs) ↔ recsOn (runStore evs) d ≠ []) ∧
      (d ∈ allStatsDays (runStore evs) ↔ recsOn (runStore evs) d ≠ []) := by
  have hg := goodState_runStore evs
  refine ⟨sortedKeys_sorted _ hg.1, sortedKeys_sorted _ hg.2.1, fun d => ?_⟩
  constructor
  · rw [allHistoryDays, mem_sortedKeys, recsOn_ne_nil_iff _ hg d]
  · rw [allStatsDays, mem_sortedKeys, stats_isSome_iff _ hg d,
      recsOn_ne_nil_iff _ hg d]

/-- C7: in every reachable state, looking up a day with zero recorded
calculations renders the "No calculations found" view (and, the lookup being
a total function, raises no exception). -/
theorem claim_C7_empty_day_lookup (evs : List StoreEv) (d : ℕ)
    (h : resultsOn (runStore evs) d = []) :
    display_daily_history_day d (runStore evs) = DayView.notFound d := by
  have hg := goodState_runStore evs
  cases hh : dictLookup d (runStore evs).calculation_history with
  | none => simp [display_daily_history_day, hh]
  | some recs =>
      exfalso
      apply (hg.2.2 d).2
      rw [resultsOn, List.map_eq_nil_iff, recsOn, hh, Option.getD_some] at h
      rw [hh, h]

/-- Witness for C7: day 3 after a single store on day 5. -/
theorem claim_C7_empty_day_lookup_witness :
    resultsOn (runStore [⟨5, "t", 2, 3, "+", 5⟩]) 3 = [] ∧
    display_daily_history_day 3 (runStore [⟨5, "t", 2, 3, "+", 5⟩]) =
      DayView.notFound 3 := by
  have h : resultsOn (runStore [⟨5, "t", 2, 3, "+", 5⟩]) 3 = [] := by
    norm_num [resultsOn, recsOn, runStore, store_calculation,
      update_daily_stats, dictLookup, dictInsert, initState]
  exact ⟨h, claim_C7_empty_day_lookup [⟨5, "t", 2, 3, "+", 5⟩] 3 h⟩

/-- Counterexample to C8 as stated: with the in-set operator "/" and second
operand 0 the evaluator does raise an error (Python's ZeroDivisionError), so
"raises an error iff the operator is outside the set" fails at
(10, 0, "/"). -/
theorem claim_C8_counterexample :
    ¬ ((∃ msg, execute_operation 10 0 "/" = Except.error msg) ↔
        "/" ∉ (["+", "-", "*", "/"] : List String)) := by
  intro hiff
  have hmem : "/" ∈ (["+", "-", "*", "/"] : List String) := by decide
  exact hiff.1 ⟨"float division by zero", by simp [execute_operation]⟩ hmem

/-- C8 amended: the evaluator raises an error iff the operator is outside
the four recognized symbols or the operator is "/" with second operand 0;
whenever the operator is outside the set, the error is the explicit
"Unknown operation" one (never a silently defaulted value). -/
theorem claim_C8_unknown_operation (a b : ℚ) (op : String) :
    ((∃ msg, execute_operation a b op = Except.error msg) ↔
      (op ∉ (["+", "-", "*", "/"] : List String) ∨ (op = "/" ∧ b = 0))) ∧
    (op ∉ (["+", "-", "*", "/"] : List String) →
      execute_operation a b op = Except.error ("Unknown operation: " ++ op)) := by
  by_cases h1 : op = "+" <;> by_cases h2 : op = "-" <;>
    by_cases h3 : op = "*" <;> by_cases h4 : op = "/" <;>
    by_cases h5 : b = 0 <;>
    simp_all [execute_operation]

/-- Witness for C8 amended at the unknown operator "%". -/
theorem claim_C8_unknown_operation_witness :
    "%" ∉ (["+", "-", "*", "/"] : List String) ∧
    execute_operation 7 3 "%" = Except.error ("Unknown operation: " ++ "%") :=
  ⟨by decide, (claim_C8_unknown_operation 7 3 "%").2 (by decide)⟩

/-- A menu choice other than "1" never changes the state. -/
lemma main_step_state_of_ne (choice : String) (today : ℕ) (ts : String)
    (a b : ℚ) (op : String) (dayInput : Option ℤ) (st : CalcState)
    (hch : choice ≠ "1") :
    (main_step choice today ts a b op dayInput st).1 = st := by
  simp only [main_step, if_neg hch]
  repeat' split
  all_goals rfl

/-- C9: the viewing selections 2-5 leave both dicts unchanged, and any menu
step that changes the state must be the calculation selection 1. -/
theorem claim_C9_views_readonly (choice : String) (today : ℕ) (ts : String)
    (a b : ℚ) (op : String) (dayInput : Option ℤ) (st : CalcState) :
    ((choice = "2" ∨ choice = "3" ∨ choice = "4" ∨ choice = "5") →
      (main_step choice today ts a b op dayInput st).1 = st) ∧
    ((main_step choice today ts a b op dayInput st).1 ≠ st →
      choice = "1") := by
  constructor
  · rintro (h | h | h | h) <;> subst h <;>
      exact main_step_state_of_ne _ _ _ _ _ _ _ _ (by decide)
  · intro hne
    by_contra hch
    exact hne (main_step_state_of_ne _ _ _ _ _ _ _ _ hch)

/-- Witness for C9: viewing selection 2 leaves a nonempty state unchanged. -/
theorem claim_C9_views_readonly_witness :
    (main_step "2" 5 "u" 1 2 "+" none
        (store_calculation 5 "t" 2 3 "+" 5 initState)).1 =
      store_calculation 5 "t" 2 3 "+" 5 initState :=
  (claim_C9_views_readonly "2" 5 "u" 1 2 "+" none
    (store_calculation 5 "t" 2 3 "+" 5 initState)).1 (Or.inl rfl)

/-- C10: store_calculation appends exactly one record at the end of the
current day's record list and rewrites that day's statistics entry; every
other day's records and statistics entries are untouched. -/
theorem claim_C10_store_frame (day : ℕ) (ts : String) (a b : ℚ) (op : String)
    (r : ℚ) (st : CalcState) (d' : ℕ) (hne : d' ≠ day) :
    recsOn (store_calculation day ts a b op r st) day =
      recsOn st day ++ [⟨ts, a, b, op, r⟩] ∧
    dictLookup day (store_calculation day ts a b op r st).daily_stats =
      some (statsUpd ((dictLookup day st.daily_stats).getD statsInit) r) ∧
    dictLookup d' (store_calculation day ts a b op r st).calculation_history =
      dictLookup d' st.calculation_history ∧
    dictLookup d' (store_calculation day ts a b op r st).daily_stats =
      dictLookup d' st.daily_stats := by
  refine ⟨?_, ?_, ?_, ?_⟩
  · rw [recsOn,
      show (store_calculation day ts a b op r st).calculation_history =
        dictInsert day (recsOn st day ++ [⟨ts, a, b, op, r⟩])
          st.calculation_history from rfl,
      dictLookup_dictInsert_self, Option.getD_some]
  · rw [show (store_calculation day ts a b op r st).daily_stats =
        update_daily_stats day r st.daily_stats from rfl,
      update_daily_stats, dictLookup_dictInsert_self]
  · rw [show (store_calculation day ts a b op r st).calculation_history =
        dictInsert day (recsOn st day ++ [⟨ts, a, b, op, r⟩])
          st.calculation_history from rfl,
      dictLookup_dictInsert_ne _ hne]
  · rw [show (store_calculation day ts a b op r st).daily_stats =
        update_daily_stats day r st.daily_stats from rfl,
      update_daily_stats, dictLookup_dictInsert_ne _ hne]

/-- Witness for C10 at day 5 and other day 4 from the empty state. -/
theorem claim_C10_store_frame_witness :
    (4 : ℕ) ≠ 5 ∧
    (recsOn (store_calculation 5 "t" 1 2 "+" 3 initState) 5 =
        recsOn initState 5 ++ [⟨"t", 1, 2, "+", 3⟩] ∧
      dictLookup 5 (store_calculation 5 "t" 1 2 "+" 3 initState).daily_stats =
        some (statsUpd ((dictLookup 5 initState.daily_stats).getD statsInit)
          3) ∧
      dictLookup 4
          (store_calculation 5 "t" 1 2 "+" 3 initState).calculation_history =
        dictLookup 4 initState.calculation_history ∧
      dictLookup 4 (store_calculation 5 "t" 1 2 "+" 3 initState).daily_stats =
        dictLookup 4 initState.daily_stats) :=
  ⟨by decide, claim_C10_store_frame 5 "t" 1 2 "+" 3 initState 4 (by decide)⟩

end SimpleCalc
